import Mathlib

/-!
Verification development for the LeshanRestAPI client (`LRest.py`).

The Python module wraps a Leshan server: it keeps a nested dictionary
`page_objects` (object name → instance key → resource name → resource path),
resolves human-readable resource names to server paths
(`searchDictionary` / `searchInstances`), and forwards CRUD-style REST calls
(`read`, `write`, `observe`, `discover`, `execute`, `delete`).

This file shallowly embeds that code: Python dictionaries become association
lists (iteration order = list order, lookup = first binding, exactly the
semantics of insertion-ordered Python dicts), Python values that may be either
`str` or `int` become the sum type `PyVal`, and exceptions become `Except`.
The raised-exception kinds of the source are kept apart (`ValueError` for
zero / many matches, `AttributeError` from `None.get`, `KeyError` from a
failing `[]` access) because the control flow of `searchDictionary`'s bare
`except:` clause depends on where an exception is raised.  Since Python lists
are mutated in place, an exception escaping a loop leaves the shared `matches`
list in its state at raise time; the embedding therefore carries that list
inside the error value.
-/

namespace LRest

/-- A Python value that is either a `str` or an `int` (the only shapes used
for object / instance qualifiers and for dictionary keys in this module). -/
inductive PyVal where
  | s (v : String)
  | i (n : Int)
deriving DecidableEq, Repr

/-- Python `str(x)` on a `PyVal`: strings unchanged, ints in decimal. -/
def pyStr : PyVal → String
  | .s v => v
  | .i n => toString n

/-- All characters are decimal digits and there is at least one. -/
def digitsOnly (l : List Char) : Bool := !l.isEmpty && l.all Char.isDigit

/-- Whether Python `int(v)` succeeds on the string `v`
(an optional sign followed by at least one decimal digit). -/
def pyStrIsInt (v : String) : Bool :=
  match v.toList with
  | [] => false
  | c :: cs => if c = '-' || c = '+' then digitsOnly cs else digitsOnly (c :: cs)

/-- Whether Python `int(x)` succeeds on a `PyVal`
(`int` values trivially, strings via `pyStrIsInt`). -/
def pyParsesAsInt : PyVal → Bool
  | .i _ => true
  | .s v => pyStrIsInt v

/-- Python `s.lower()` (the ASCII case folding these resource names use),
written on the character list so that it evaluates by kernel reduction. -/
def pyLower (s : String) : String := String.mk (s.data.map Char.toLower)

/-- Replace every occurrence of the character `c` in a character list by the
list `repl`. -/
def replaceCharList (c : Char) (repl : List Char) : List Char → List Char
  | [] => []
  | x :: xs => (if x = c then repl else [x]) ++ replaceCharList c repl xs

/-- Python `url.replace('#','api')` (src lines 39, 59, 74, 89, 104, 119):
every `#` of the URL is replaced by `api`. -/
def urlToApi (url : String) : String :=
  String.mk (replaceCharList '#' ['a', 'p', 'i'] url.data)

/-- Resource name → resource path (one instance's resources). -/
abbrev ResDict := List (String × String)

/-- Instance key → resource dictionary.  Keys are `PyVal` because the dict
built by `parseHTML` uses `int` keys while the JSON cache uses `str` keys. -/
abbrev InstMap := List (PyVal × ResDict)

/-- Object name → instance map: the `page_objects` dictionary. -/
abbrev SiteMap := List (String × InstMap)

/-- First-binding association-list lookup: Python `d.get(k)` / `d[k]`. -/
def alistGet {α β : Type} [DecidableEq α] : List (α × β) → α → Option β
  | [], _ => none
  | (k, v) :: rest, key => if k = key then some v else alistGet rest key

/-- `page_objects.get(object_)` where `object_` may be a `str` or an `int`:
a binding matches only when `object_` equals its string key
(a Python `int` never equals a `str` key). -/
def objGet : SiteMap → PyVal → Option InstMap
  | [], _ => none
  | (k, v) :: rest, key => if key = PyVal.s k then some v else objGet rest key

/-- The exception kinds `searchDictionary` / `searchInstances` can raise. -/
inductive PyErr where
  | notFound
  | ambiguous (resource : String)
  | attrError
  | keyError
deriving DecidableEq, Repr

/-- The `ValueError` message of a zero-match resolution (src line 162). -/
def notFoundMessage : String :=
  "Could not find a resource that satisfies conditions"

/-- The `ValueError` message of an ambiguous resolution (src line 183). -/
def ambiguousMessage (resource : String) : String :=
  "Multiple resources were found that satisfy conditions to match resource: "
    ++ resource ++ ". Please specify instance number or object name"

/-- The `for res_key,res_val in ...items()` loop of `searchInstances`
(src lines 178-183): append each case-insensitive match to `matches`, raising
`ValueError` as soon as the shared list holds more than one entry.  The error
carries the state of the (in-place mutated) `matches` list at raise time. -/
def scanResources (resource : String) :
    ResDict → List String → Except (PyErr × List String) (List String)
  | [], ms => .ok ms
  | (resKey, resVal) :: rest, ms =>
    let ms' :=
      if pyLower resKey = pyLower resource then ms ++ [resVal] else ms
    if ms'.length > 1 then .error (.ambiguous resource, ms')
    else scanResources resource rest ms'

/-- `LRest.searchInstances` (src lines 167-185).
`self.page_objects.get(object_).get(instance)`: a missing object name makes
the first `get` return `None`, so the second raises `AttributeError`; a
present object with a missing instance key yields `None`, and the function
returns a fresh empty list (discarding `matches`); otherwise the resource
entries of that pair are scanned. -/
def searchInstances (pageObjects : SiteMap) (resource : String)
    (object_ : PyVal) (instance_ : PyVal) (ms : List String) :
    Except (PyErr × List String) (List String) :=
  match objGet pageObjects object_ with
  | none => .error (.attrError, ms)
  | some instMap =>
    match alistGet instMap instance_ with
    | none => .ok []
    | some resDict => scanResources resource resDict ms

/-- The loop `for obj_key in keys: matches = searchInstances(resource,
obj_key, instance, matches)` (src lines 141-142 and 149-150): search one
fixed instance key under every object. -/
def searchFixedInstance (pageObjects : SiteMap) (resource : String)
    (instance_ : PyVal) :
    List String → List String → Except (PyErr × List String) (List String)
  | [], ms => .ok ms
  | objKey :: rest, ms =>
    match searchInstances pageObjects resource (.s objKey) instance_ ms with
    | .error e => .error e
    | .ok ms => searchFixedInstance pageObjects resource instance_ rest ms

/-- The loop `for inst_key in instKeys: matches = searchInstances(resource,
object_, inst_key, matches)` (src lines 136-137 and 155-156): search every
listed instance key under one object. -/
def searchObjInsts (pageObjects : SiteMap) (resource : String)
    (object_ : PyVal) :
    List PyVal → List String → Except (PyErr × List String) (List String)
  | [], ms => .ok ms
  | instKey :: rest, ms =>
    match searchInstances pageObjects resource object_ instKey ms with
    | .error e => .error e
    | .ok ms => searchObjInsts pageObjects resource object_ rest ms

/-- The doubly nested loop of the no-qualifier branch (src lines 135-137):
for each object key, iterate the instance keys of `page_objects[obj_key]`
(a `[]` access, hence `KeyError` if it were ever missing) and search each
(object, instance) pair. -/
def searchAllObjs (pageObjects : SiteMap) (resource : String) :
    List String → List String → Except (PyErr × List String) (List String)
  | [], ms => .ok ms
  | objKey :: rest, ms =>
    match objGet pageObjects (.s objKey) with
    | none => .error (.keyError, ms)
    | some instMap =>
      match searchObjInsts pageObjects resource (.s objKey)
          (instMap.map Prod.fst) ms with
      | .error e => .error e
      | .ok ms => searchAllObjs pageObjects resource rest ms

/-- `LRest.searchDictionary` (src lines 123-164).

* `object_ = none, instance_ = none`: search every (object, instance) pair.
* `object_ = none, instance_ = some i`: `instance = str(instance)`, then
  search that fixed instance key under every object.
* `object_ = some o` with `int(o)` succeeding: `instance = str(object_)` and
  the same fixed-instance loop runs — but inside the `try:`, so ANY exception
  it raises (in particular the ambiguity `ValueError`) is swallowed by the
  bare `except:`, which then (as `instance` is no longer `None`) re-runs
  `searchInstances(resource, object_, instance, matches)` with `object_`
  now treated as an object NAME and with the mutated `matches` list.
* `object_ = some o` not parsing as an int (so `int(o)` raised and the
  `except:` branch runs with the caller's `instance` unchanged):
  - `instance_ = none`: iterate the instance keys of `page_objects[object_]`
    (`KeyError` when the object name is absent);
  - `instance_ = some i`: search exactly that pair, `instance` NOT
    normalized to a string here.

Finally: an empty `matches` raises the not-found `ValueError`, otherwise
`matches[0]` is returned. -/
def searchDictionary (pageObjects : SiteMap) (resource : String)
    (object_ : Option PyVal) (instance_ : Option PyVal) : Except PyErr String :=
  let searched : Except (PyErr × List String) (List String) :=
    match object_ with
    | none =>
      match instance_ with
      | none => searchAllObjs pageObjects resource (pageObjects.map Prod.fst) []
      | some inst =>
        searchFixedInstance pageObjects resource (.s (pyStr inst))
          (pageObjects.map Prod.fst) []
    | some obj =>
      if pyParsesAsInt obj then
        match searchFixedInstance pageObjects resource (.s (pyStr obj))
            (pageObjects.map Prod.fst) [] with
        | .ok ms => .ok ms
        | .error e =>
          searchInstances pageObjects resource obj (.s (pyStr obj)) e.2
      else
        match instance_ with
        | none =>
          match objGet pageObjects obj with
          | none => .error (.keyError, [])
          | some instMap =>
            searchObjInsts pageObjects resource obj (instMap.map Prod.fst) []
        | some inst => searchInstances pageObjects resource obj inst []
  match searched with
  | .error e => .error e.1
  | .ok [] => .error .notFound
  | .ok (m :: _) => .ok m

/-! ## Occurrence bookkeeping

`occurrences` lists, in iteration order, the paths of every resource entry of
the site map whose name case-folds to the queried resource name — exactly the
entries the no-qualifier search appends to `matches`. -/

/-- Paths of the entries of one resource dictionary whose key matches the
queried name case-insensitively, in order. -/
def occInst (resource : String) : ResDict → List String
  | [] => []
  | (resKey, resVal) :: rest =>
    (if pyLower resKey = pyLower resource then [resVal] else [])
      ++ occInst resource rest

/-- Matching paths of every instance of one object, in order. -/
def occIM (resource : String) : InstMap → List String
  | [] => []
  | (_, resDict) :: rest => occInst resource resDict ++ occIM resource rest

/-- Matching paths of the whole site map, in iteration order. -/
def occurrences (resource : String) : SiteMap → List String
  | [] => []
  | (_, instMap) :: rest => occIM resource instMap ++ occurrences resource rest

/-- The path `x` is stored in `pageObjects` under the pair
(`objName`, `instKey`) for a resource name that case-folds to `resource`. -/
def occAt (pageObjects : SiteMap) (objName : String) (instKey : PyVal)
    (resource x : String) : Prop :=
  ∃ instMap resDict resKey, (objName, instMap) ∈ pageObjects ∧
    (instKey, resDict) ∈ instMap ∧ (resKey, x) ∈ resDict ∧
    pyLower resKey = pyLower resource

/-- The association lists of the site map have pairwise distinct keys at the
object level and at each instance level — i.e. the site map denotes an actual
Python dictionary of dictionaries. -/
def SiteMapWF (pageObjects : SiteMap) : Prop :=
  (pageObjects.map Prod.fst).Nodup ∧
    ∀ p ∈ pageObjects, (p.2.map Prod.fst).Nodup

instance : DecidablePred SiteMapWF := fun _ =>
  inferInstanceAs (Decidable (_ ∧ _))

/-- The `matches` list a search step holds: its result on success, the
carried raise-time state on an exception. -/
def resultList : Except (PyErr × List String) (List String) → List String
  | .ok l => l
  | .error e => e.2

/-- Consistency of a successful resolution's (object, instance) pair with the
caller's `object_` qualifier: a non-integer-like string `object_` pins the
object name; an absent or integer-like `object_` imposes nothing. -/
def qualObjOK (object_ : Option PyVal) (objName : String) : Prop :=
  ∀ v, object_ = some (.s v) → pyStrIsInt v = false → objName = v

/-- Consistency of a successful resolution's instance key with the caller's
qualifiers: an integer-like `object_` pins the key to its string form; with a
true object name, a supplied `instance_` is used as the raw lookup key; with
no object, a supplied `instance_` is normalized by `str`. -/
def qualInstOK (object_ instance_ : Option PyVal) (instKey : PyVal) : Prop :=
  match object_ with
  | some obj =>
    if pyParsesAsInt obj then instKey = .s (pyStr obj)
    else ∀ inst, instance_ = some inst → instKey = inst
  | none => ∀ inst, instance_ = some inst → instKey = .s (pyStr inst)

/-! ## The REST operations

`read`/`write`/`observe`/`discover`/`execute`/`delete` (src lines 30-121) all
resolve a path with `searchDictionary`, derive the endpoint by replacing the
URL's `#` marker with `api` and appending the path (plus `/observe` or
`/discover` where applicable), issue one HTTP request and check its status.
The HTTP transport and JSON decoding are external collaborators; following
the spec's interface boundary (§6), the external client is modelled as a
function from the issued call to a status and an optional parsed JSON body
(`none` = the body text is not valid JSON), and a non-2xx status is the
request-failure condition of `raise_for_status`. -/

/-- A JSON value, as far as this module consumes one. -/
inductive JVal where
  | str (v : String)
  | num (n : Int)
  | obj (fields : List (String × JVal))
  | null

/-- Python `d[key]` on a decoded JSON value: a field of an object, an
exception (here `none`) otherwise. -/
def jGet : JVal → String → Option JVal
  | .obj fields, key => alistGet fields key
  | _, _ => none

/-- One HTTP request as handed to the external REST client. -/
structure HttpCall where
  method : String
  callUrl : String
  payload : Option (String × String)
deriving DecidableEq, Repr

/-- What the external REST client reports back: a status code and the
response body (already JSON-decoded when possible, `none` otherwise). -/
structure HttpResp where
  status : Nat
  body : Option JVal

/-- Modelled from the spec: `requests.Response.raise_for_status` is outside
the repository; per the spec's REST-client boundary (§6) any non-2xx status
is the failure condition. -/
def is2xx (status : Nat) : Bool := 200 ≤ status && status ≤ 299

/-- The state a constructed `LRest` client carries: its URL, the
`page_objects` site map loaded at construction, and (for the effect model)
the log of HTTP calls performed so far. -/
structure ClientState where
  url : String
  page_objects : SiteMap
  calls : List HttpCall

/-- The six public operations. -/
inductive OpKind where
  | read | write | observe | discover | execute | delete
deriving DecidableEq, Repr

/-- HTTP verb used by each operation (src lines 39, 59, 74, 89, 104, 119). -/
def opMethod : OpKind → String
  | .read => "GET"
  | .write => "PUT"
  | .observe => "POST"
  | .discover => "GET"
  | .execute => "POST"
  | .delete => "DELETE"

/-- Path suffix appended after the resolved resource id. -/
def opSuffix : OpKind → String
  | .observe => "/observe"
  | .discover => "/discover"
  | _ => ""

/-- Errors an operation can surface: a resolution failure, a non-success
HTTP status, or (for `read`) an uninterpretable response body. -/
inductive OpErr where
  | resolveErr (e : PyErr)
  | requestFailed (status : Nat)
  | malformed
deriving DecidableEq, Repr

/-- `json.loads(r.text)` followed by `rDict['content']['value']`
(src lines 43-45): fails when the body is not JSON, not an object, or lacks
either field. -/
def readExtract : Option JVal → Except OpErr (Option JVal)
  | none => .error .malformed
  | some j =>
    match jGet j "content" with
    | none => .error .malformed
    | some c =>
      match jGet c "value" with
      | none => .error .malformed
      | some v => .ok (some v)

/-- Status check plus (for `read` only) body decoding, in source order:
`raise_for_status` runs before `json.loads`. -/
def opOutcome (kind : OpKind) (resp : HttpResp) : Except OpErr (Option JVal) :=
  if is2xx resp.status then
    match kind with
    | .read => readExtract resp.body
    | _ => .ok none
  else .error (.requestFailed resp.status)

/-- One public operation (src lines 30-121): resolve the resource, then issue
the single HTTP call and interpret the response.  On resolution failure the
call is never issued and the state is untouched; once the call is issued it
is appended to the effect log whatever its status. -/
def runOp (net : HttpCall → HttpResp) (st : ClientState) (kind : OpKind)
    (text resource : String) (object_ instance_ : Option PyVal) :
    ClientState × Except OpErr (Option JVal) :=
  match searchDictionary st.page_objects resource object_ instance_ with
  | .error e => (st, .error (.resolveErr e))
  | .ok resId =>
    let call : HttpCall :=
      { method := opMethod kind
        callUrl := urlToApi st.url ++ resId ++ opSuffix kind
        payload := if kind = OpKind.write then some (resId, text) else none }
    ({ st with calls := st.calls ++ [call] }, opOutcome kind (net call))

/-- The arguments of one operation invocation. -/
structure OpCall where
  kind : OpKind
  text : String
  resource : String
  object_ : Option PyVal
  instance_ : Option PyVal

/-- Run a sequence of operations, threading the client state. -/
def runSeq (net : HttpCall → HttpResp) (st : ClientState) :
    List OpCall → ClientState
  | [] => st
  | c :: rest =>
    runSeq net (runOp net st c.kind c.text c.resource c.object_ c.instance_).1
      rest

/-! ## Site-map acquisition (src lines 188-285)

`parseHTML` builds `instance_dict[i] = resource_dict` with the loop index
`i : int` (src line 280), so a freshly scraped site map has integer instance
keys; `cacheClient` serializes it with `json.dumps` and `getSource` reloads
it with `json.load`, and JSON object keys are strings, so every instance key
comes back as its decimal string. -/

/-- Whether every instance key of the map is a Python `int`, the shape
`parseHTML` produces. -/
def allIntKeys (pageObjects : SiteMap) : Bool :=
  pageObjects.all fun p => p.2.all fun q =>
    match q.1 with
    | .i _ => true
    | .s _ => false

/-- `json.load ∘ json.dumps` on the nested dictionary: object names, resource
names and paths are strings and survive unchanged; instance keys are coerced
to their string form (`json.dumps` writes an `int` key as its decimal
digits). -/
def jsonRoundTrip (pageObjects : SiteMap) : SiteMap :=
  pageObjects.map fun p =>
    (p.1, p.2.map fun q => (PyVal.s (pyStr q.1), q.2))

instance {ε α : Type} [DecidableEq ε] [DecidableEq α] :
    DecidableEq (Except ε α) := fun x y =>
  match x, y with
  | .ok a, .ok b =>
    if h : a = b then isTrue (by rw [h])
    else isFalse (by intro hc; cases hc; exact h rfl)
  | .error a, .error b =>
    if h : a = b then isTrue (by rw [h])
    else isFalse (by intro hc; cases hc; exact h rfl)
  | .ok _, .error _ => isFalse (by intro h; cases h)
  | .error _, .ok _ => isFalse (by intro h; cases h)

/-! ## Concrete site maps used to exercise the resolver -/

/-- Two objects, each with instance "0" carrying resource "r". -/
def poAB : SiteMap :=
  [("A", [(.s "0", [("r", "/1")])]), ("B", [(.s "0", [("r", "/2")])])]

/-- `poAB` plus an object literally named "0" whose instance "0" has no
resources. -/
def poABZ : SiteMap :=
  [("A", [(.s "0", [("r", "/1")])]), ("B", [(.s "0", [("r", "/2")])]),
   ("0", [(.s "0", ([] : ResDict))])]

/-- Resource "r" lives only under ("A","0"); object "B" has no instance "0". -/
def poReset : SiteMap :=
  [("A", [(.s "0", [("r", "/1")])]), ("B", [(.s "1", [("x", "/9")])])]

/-- A single object "Device" with instance "0" carrying resource "r". -/
def poDev : SiteMap := [("Device", [(.s "0", [("r", "/1")])])]

/-- The shape `parseHTML` produces: integer instance keys (src line 280). -/
def poScraped : SiteMap := [("Device", [(.i 0, [("r", "/1")])])]

/-- A mixed-case resource name stored under a single pair. -/
def poBatt : SiteMap :=
  [("Device", [(.s "0", [("Battery_Test", "/3/0/9")])])]

/-- C1: the claim says `resolve(resource, object_="0")` behaves exactly like
`resolve(resource, instance="0")`, including when the search finds more than
one candidate.  On `poAB` the instance form raises the ambiguity
`ValueError`, but in the integer-like-`object_` branch that exception is
raised inside the `try:` (src lines 144-150), swallowed by the bare
`except:` (src line 151), and the re-search of the pair ("0","0") then
crashes with `AttributeError` because no object is named "0"
(src line 175).  The two calls therefore diverge at this input. -/
theorem objectIntQualifier_ambiguity_diverges :
    searchDictionary poAB "r" (some (.s "0")) none = .error .attrError ∧
    searchDictionary poAB "r" none (some (.s "0")) =
      .error (.ambiguous "r") ∧
    Except.error PyErr.attrError ≠
      (Except.error (PyErr.ambiguous "r") : Except PyErr String) := by
  refine ⟨by decide, by decide, by decide⟩

/-- C2 counterexample: the claim says a missing (object, instance) scope
leaves the shared candidate list as it was, so the match "/1" collected under
("A","0") should survive the visit of the missing pair ("B","0") and be
returned.  In the code `searchInstances` returns a fresh empty list
(src line 176), so the earlier match is discarded and resolution ends in the
zero-match `ValueError` instead of returning "/1". -/
theorem missingScope_discards_prior_match :
    searchInstances poReset "r" (.s "A") (.s "0") [] = .ok ["/1"] ∧
    searchDictionary poReset "r" none (some (.s "0")) = .error .notFound ∧
    searchDictionary poReset "r" none (some (.s "0")) ≠ .ok "/1" := by
  refine ⟨by decide, by decide, by decide⟩

/-- C2 amended: when the object exists but the instance key is absent under
it, the scope contributes zero candidates AND the shared candidate list is
replaced by a fresh empty list, so matches collected in earlier scopes are
discarded rather than preserved (src lines 174-176). -/
theorem searchInstances_missingPair_resets (po : SiteMap)
    (resource : String) (obj instKey : PyVal) (ms : List String)
    (im : InstMap) (h1 : objGet po obj = some im)
    (h2 : alistGet im instKey = none) :
    searchInstances po resource obj instKey ms = .ok [] := by
  simp [searchInstances, h1, h2]

/-- Witness for the amended C2: with the match "/1" already collected, the
missing pair ("B","0") of `poReset` resets the list to empty. -/
theorem searchInstances_missingPair_resets_w :
    searchInstances poReset "r" (.s "B") (.s "0") ["/1"] = .ok [] :=
  searchInstances_missingPair_resets poReset "r" (.s "B") (.s "0") ["/1"]
    [(.s "1", [("x", "/9")])] (by decide) (by decide)

/-- C3: the claim says that the moment the shared candidate list exceeds one
entry the whole resolution fails at once with the ambiguity error.  On
`poABZ` with the integer-like qualifier `object_ = "0"`, the second match
does raise the ambiguity `ValueError` inside the `try:` loop, but the bare
`except:` (src line 151) swallows it, re-searches the pair ("0","0") — which
exists and has no resources, so `searchInstances` returns the two-element
list unchanged — and `searchDictionary` then returns `matches[0] = "/1"`:
resolution SUCCEEDS despite two in-scope matches (both visible in
`occurrences`), while the same query phrased via `instance` fails. -/
theorem ambiguity_swallowed_by_intObject_branch :
    occurrences "r" poABZ = ["/1", "/2"] ∧
    searchDictionary poABZ "r" (some (.s "0")) none = .ok "/1" ∧
    searchDictionary poABZ "r" none (some (.s "0")) =
      .error (.ambiguous "r") := by
  refine ⟨by decide, by decide, by decide⟩

/-- C5 counterexample: the claim says that when the supplied
(object, instance) pair has no entry, resolution fails with the not-found
error even if the resource exists elsewhere.  When the object NAME is absent
entirely, however, `page_objects.get(object_)` is `None` and the chained
`.get(instance)` raises `AttributeError` (src line 175) — not the not-found
`ValueError` — even though resource "r" exists under ("A","0"). -/
theorem absentObject_attrError :
    searchDictionary poReset "r" (some (.s "C")) (some (.s "0")) =
      .error .attrError ∧
    searchDictionary poReset "r" (some (.s "C")) (some (.s "0")) ≠
      .error .notFound := by
  refine ⟨by decide, by decide⟩

/-- C5 amended: with a non-integer-like `object_` and a supplied `instance`,
only that exact scope is consulted; if the object exists but lacks the
instance key the resolution fails with the zero-match `ValueError`
(not-found) even when the resource exists elsewhere, while an object name
absent from the site map altogether raises `AttributeError` instead. -/
theorem exactScope_errors (po : SiteMap) (resource v : String)
    (inst : PyVal) (hv : pyStrIsInt v = false) :
    (objGet po (.s v) = none →
      searchDictionary po resource (some (.s v)) (some inst) =
        .error .attrError) ∧
    (∀ im, objGet po (.s v) = some im → alistGet im inst = none →
      searchDictionary po resource (some (.s v)) (some inst) =
        .error .notFound) := by
  constructor
  · intro h
    unfold searchDictionary searchInstances
    simp [pyParsesAsInt, hv, h]
  · intro im h1 h2
    unfold searchDictionary searchInstances
    simp [pyParsesAsInt, hv, h1, h2]

/-- Witness for the amended C5 on `poReset`: an absent object name gives
`AttributeError`; an existing object without the requested instance key
gives the not-found error, though "r" exists under ("A","0"). -/
theorem exactScope_errors_w :
    searchDictionary poReset "r" (some (.s "C")) (some (.s "0")) =
      .error .attrError ∧
    searchDictionary poReset "r" (some (.s "B")) (some (.s "0")) =
      .error .notFound :=
  ⟨(exactScope_errors poReset "r" "C" (.s "0") (by decide)).1 (by decide),
   (exactScope_errors poReset "r" "B" (.s "0") (by decide)).2
     [(.s "1", [("x", "/9")])] (by decide) (by decide)⟩

/-- C6: the claim says an integer instance behaves like its decimal string in
every branch.  In the branch where a true object name and an instance are
both supplied (src lines 157-159) the code does NOT normalize `instance` to a
string, so the integer `0` never equals the string key "0" and resolution
fails not-found, while the string form succeeds. -/
theorem intInstance_not_normalized_in_exact_branch :
    searchDictionary poDev "r" (some (.s "Device")) (some (.i 0)) =
      .error .notFound ∧
    searchDictionary poDev "r" (some (.s "Device")) (some (.s "0")) =
      .ok "/1" := by
  refine ⟨by decide, by decide⟩

/-- C7: the claim says a freshly scraped site map and its cache round-trip
resolve identically on every query.  `parseHTML` keys instances by the
integer loop index (src line 280), while the JSON cache round-trip turns
those keys into decimal strings; the query `resolve("r", instance=0)`
normalizes the instance to the string "0" (src line 140), which misses the
integer key of the fresh map but hits the string key of the reloaded map. -/
theorem scrape_cache_roundTrip_diverges :
    allIntKeys poScraped = true ∧
    jsonRoundTrip poScraped = [("Device", [(.s "0", [("r", "/1")])])] ∧
    searchDictionary poScraped "r" none (some (.i 0)) = .error .notFound ∧
    searchDictionary (jsonRoundTrip poScraped) "r" none (some (.i 0)) =
      .ok "/1" := by
  refine ⟨by decide, by decide, by decide, by decide⟩

/-- Every single operation leaves the client's URL and site map untouched:
`runOp` only ever extends the call log. -/
theorem runOp_state (net : HttpCall → HttpResp) (st : ClientState)
    (kind : OpKind) (text resource : String)
    (object_ instance_ : Option PyVal) :
    (runOp net st kind text resource object_ instance_).1.page_objects =
      st.page_objects ∧
    (runOp net st kind text resource object_ instance_).1.url = st.url := by
  unfold runOp
  cases searchDictionary st.page_objects resource object_ instance_ <;> simp

/-- C9: no CRUD operation mutates the site map — after any sequence of
`read`/`write`/`observe`/`discover`/`execute`/`delete` calls the client's
`page_objects` (and URL) equal those loaded at construction — and when
resolution fails the operation performs no HTTP call at all: the state is
returned unchanged (in particular the call log), and the resolution error is
surfaced, so effects happen only after successful resolution. -/
theorem ops_preserve_siteMap_and_fail_before_effects
    (net : HttpCall → HttpResp) (st : ClientState) (l : List OpCall) :
    ((runSeq net st l).page_objects = st.page_objects ∧
      (runSeq net st l).url = st.url) ∧
    ∀ kind text resource object_ instance_ e,
      searchDictionary st.page_objects resource object_ instance_ =
        .error e →
      (runOp net st kind text resource object_ instance_).1 = st ∧
      (runOp net st kind text resource object_ instance_).2 =
        .error (.resolveErr e) := by
  constructor
  · induction l generalizing st with
    | nil => exact ⟨rfl, rfl⟩
    | cons c rest ih =>
      have hstep := runOp_state net st c.kind c.text c.resource c.object_
        c.instance_
      have htail := ih (runOp net st c.kind c.text c.resource c.object_
        c.instance_).1
      exact ⟨htail.1.trans hstep.1, htail.2.trans hstep.2⟩
  · intro kind text resource object_ instance_ e h
    unfold runOp
    rw [h]
    exact ⟨rfl, rfl⟩

/-- Witness for C9: a concrete two-call sequence preserves the site map, and
an unresolvable query performs no HTTP call and surfaces the not-found
error. -/
theorem ops_preserve_siteMap_w :
    (runSeq (fun _ => ⟨200, none⟩) ⟨"http://h/#/c", poDev, []⟩
        [⟨.write, "on", "r", none, none⟩, ⟨.delete, "", "r", none, none⟩]
      ).page_objects = poDev ∧
    (runOp (fun _ => ⟨200, none⟩) ⟨"http://h/#/c", poDev, []⟩ .write "on"
        "missing" none none).1 = ⟨"http://h/#/c", poDev, []⟩ ∧
    (runOp (fun _ => ⟨200, none⟩) ⟨"http://h/#/c", poDev, []⟩ .write "on"
        "missing" none none).2 = .error (.resolveErr .notFound) := by
  have h := ops_preserve_siteMap_and_fail_before_effects
    (fun _ => ⟨200, none⟩) ⟨"http://h/#/c", poDev, []⟩
    [⟨.write, "on", "r", none, none⟩, ⟨.delete, "", "r", none, none⟩]
  have h2 := h.2 .write "on" "missing" none none .notFound (by decide)
  exact ⟨h.1.1, h2.1, h2.2⟩

/-- C8: `read` first resolves the resource to a path; it then issues exactly
one GET whose URL is the client URL with its `#` marker replaced by `api`
followed by the resolved path, and interprets the response: a non-2xx status
yields the request-failure error (no value), a body that is not JSON or
lacks the `content`/`value` fields yields the malformed-response error, and
otherwise the extracted value field is returned (`readExtract`).  The
non-2xx check models the external REST client's `raise_for_status` at the
spec's interface boundary and runs before the body is decoded. -/
theorem read_contract (net : HttpCall → HttpResp) (st : ClientState)
    (text resource : String) (object_ instance_ : Option PyVal)
    (path : String)
    (h : searchDictionary st.page_objects resource object_ instance_ =
      .ok path) :
    (runOp net st .read text resource object_ instance_).1.calls =
      st.calls ++ [⟨"GET", urlToApi st.url ++ path, none⟩] ∧
    (runOp net st .read text resource object_ instance_).2 =
      (if is2xx (net ⟨"GET", urlToApi st.url ++ path, none⟩).status then
        readExtract (net ⟨"GET", urlToApi st.url ++ path, none⟩).body
      else
        .error (.requestFailed
          (net ⟨"GET", urlToApi st.url ++ path, none⟩).status)) := by
  unfold runOp
  rw [h]
  simp [opOutcome, opMethod, opSuffix, String.append_empty]

/-- Witness for C8: on `poDev`, resource "r" resolves to "/1"; with a server
always answering 500, `read` records the derived GET and fails with the
request-failure error carrying that status. -/
theorem read_contract_w :
    (runOp (fun _ => ⟨500, none⟩) ⟨"http://h/#/c", poDev, []⟩ .read ""
        "r" none none).1.calls = [⟨"GET", "http://h/api/c/1", none⟩] ∧
    (runOp (fun _ => ⟨500, none⟩) ⟨"http://h/#/c", poDev, []⟩ .read ""
        "r" none none).2 = .error (.requestFailed 500) := by
  have h := read_contract (fun _ => ⟨500, none⟩) ⟨"http://h/#/c", poDev, []⟩
    "" "r" none none "/1" (by decide)
  refine ⟨?_, ?_⟩
  · rw [h.1]; decide
  · rw [h.2]; simp [is2xx]


/-! ## Lemmas about the search loops -/

theorem alistGet_of_nodup {α β : Type} [DecidableEq α] :
    ∀ (l : List (α × β)), (l.map Prod.fst).Nodup →
      ∀ (k : α) (v : β), (k, v) ∈ l → alistGet l k = some v := by
  intro l
  induction l with
  | nil => intro _ k v hm; cases hm
  | cons head tail ih =>
    obtain ⟨k0, v0⟩ := head
    intro hn k v hm
    simp only [List.map_cons, List.nodup_cons] at hn
    rcases List.mem_cons.mp hm with heq | hmem
    · cases heq
      simp [alistGet]
    · have hk : ¬ k0 = k := by
        intro hk
        subst hk
        exact hn.1 (List.mem_map.mpr ⟨(k0, v), hmem, rfl⟩)
      simp only [alistGet, if_neg hk]
      exact ih hn.2 k v hmem

theorem objGet_of_nodup :
    ∀ (po : SiteMap), (po.map Prod.fst).Nodup →
      ∀ (k : String) (im : InstMap), (k, im) ∈ po →
        objGet po (.s k) = some im := by
  intro po
  induction po with
  | nil => intro _ k im hm; cases hm
  | cons head tail ih =>
    obtain ⟨k0, v0⟩ := head
    intro hn k im hm
    simp only [List.map_cons, List.nodup_cons] at hn
    rcases List.mem_cons.mp hm with heq | hmem
    · cases heq
      simp [objGet]
    · have hk : ¬ (PyVal.s k) = PyVal.s k0 := by
        intro hk
        cases hk
        exact hn.1 (List.mem_map.mpr ⟨(k0, im), hmem, rfl⟩)
      simp only [objGet, if_neg hk]
      exact ih hn.2 k im hmem

theorem scanResources_ok (resource : String) :
    ∀ (rd : ResDict) (ms : List String),
      (ms ++ occInst resource rd).length ≤ 1 →
      scanResources resource rd ms = .ok (ms ++ occInst resource rd) := by
  intro rd
  induction rd with
  | nil => intro ms h; simp [scanResources, occInst]
  | cons head tail ih =>
    obtain ⟨rk, rv⟩ := head
    intro ms h
    by_cases hm : pyLower rk = pyLower resource
    · simp only [occInst, if_pos hm, List.length_append, List.singleton_append,
        List.length_cons] at h
      have hms : ms = [] := by
        cases ms with
        | nil => rfl
        | cons a t =>
          exfalso
          simp only [List.length_cons] at h
          omega
      subst hms
      have hocc : occInst resource tail = [] := by
        cases hocc2 : occInst resource tail with
        | nil => rfl
        | cons a t => rw [hocc2] at h; simp at h
      simp only [scanResources, if_pos hm]
      rw [if_neg (by simp)]
      have := ih [rv] (by simp [hocc])
      simp only [List.nil_append]
      rw [this]
      simp [occInst, if_pos hm, hocc]
    · simp only [occInst, if_neg hm, List.nil_append] at h ⊢
      simp only [scanResources, if_neg hm]
      rw [if_neg (by simp [List.length_append] at h ⊢; omega)]
      exact ih ms h

theorem searchObjInsts_ok (po : SiteMap) (resource : String) (objKey : String)
    (im : InstMap) (hobj : objGet po (.s objKey) = some im) :
    ∀ (ie : InstMap) (ms : List String),
      (∀ e ∈ ie, alistGet im e.1 = some e.2) →
      (ms ++ occIM resource ie).length ≤ 1 →
      searchObjInsts po resource (.s objKey) (ie.map Prod.fst) ms =
        .ok (ms ++ occIM resource ie) := by
  intro ie
  induction ie with
  | nil => intro ms _ h; simp [searchObjInsts, occIM]
  | cons head tail ih =>
    obtain ⟨ik, rd⟩ := head
    intro ms hget h
    have h1 : (ms ++ occInst resource rd).length ≤ 1 := by
      simp only [occIM, List.length_append] at h ⊢
      omega
    have hs : searchInstances po resource (.s objKey) ik ms =
        .ok (ms ++ occInst resource rd) := by
      have hik : alistGet im ik = some rd := hget (ik, rd) (by simp)
      simp only [searchInstances, hobj, hik]
      exact scanResources_ok resource rd ms h1
    simp only [List.map_cons, searchObjInsts, hs]
    have h2 : ((ms ++ occInst resource rd) ++ occIM resource tail).length ≤ 1 := by
      simp only [occIM, List.length_append] at h ⊢
      omega
    rw [ih (ms ++ occInst resource rd) (fun e he => hget e (by simp [he])) h2]
    simp [occIM]

theorem searchAllObjs_ok (po : SiteMap) (resource : String) :
    ∀ (oe : SiteMap) (ms : List String),
      (∀ e ∈ oe, objGet po (.s e.1) = some e.2 ∧ (e.2.map Prod.fst).Nodup) →
      (ms ++ occurrences resource oe).length ≤ 1 →
      searchAllObjs po resource (oe.map Prod.fst) ms =
        .ok (ms ++ occurrences resource oe) := by
  intro oe
  induction oe with
  | nil => intro ms _ h; simp [searchAllObjs, occurrences]
  | cons head tail ih =>
    obtain ⟨objKey, im⟩ := head
    intro ms hprop h
    have hhead := hprop (objKey, im) (by simp)
    have h1 : (ms ++ occIM resource im).length ≤ 1 := by
      simp only [occurrences, List.length_append] at h ⊢
      omega
    have hget : ∀ e ∈ im, alistGet im e.1 = some e.2 := by
      intro e he
      have := alistGet_of_nodup im hhead.2 e.1 e.2 (by rw [Prod.mk.eta]; exact he)
      exact this
    have hs := searchObjInsts_ok po resource objKey im hhead.1 im ms hget h1
    simp only [List.map_cons, searchAllObjs, hhead.1, hs]
    have h2 : ((ms ++ occIM resource im) ++ occurrences resource tail).length ≤ 1 := by
      simp only [occurrences, List.length_append] at h ⊢
      omega
    rw [ih (ms ++ occIM resource im) (fun e he => hprop e (by simp [he])) h2]
    simp [occurrences]

/-- C4: on a well-formed site map (distinct object names, distinct instance
keys per object — i.e. an actual Python dict of dicts) in which the
case-folded query name matches exactly one resource entry (the `occurrences`
list is the singleton `[p]`), `resolve(resource)` with no qualifiers returns
that entry's path.  The matching is case-insensitive throughout — the
hypothesis and the search both compare `pyLower`-folded names, as witnessed
below by a resource stored as "Battery_Test" found by the query
"battery_test". -/
theorem resolve_unique_occurrence (po : SiteMap) (resource p : String)
    (hwf : SiteMapWF po) (hocc : occurrences resource po = [p]) :
    searchDictionary po resource none none = .ok p := by
  have hprop : ∀ e ∈ po, objGet po (.s e.1) = some e.2 ∧
      (e.2.map Prod.fst).Nodup := by
    intro e he
    exact ⟨objGet_of_nodup po hwf.1 e.1 e.2 (by rw [Prod.mk.eta]; exact he),
      hwf.2 e he⟩
  have h := searchAllObjs_ok po resource po [] hprop (by simp [hocc])
  simp only [searchDictionary, h, hocc, List.nil_append]

theorem alistGet_mem {α β : Type} [DecidableEq α] :
    ∀ (l : List (α × β)) (k : α) (v : β), alistGet l k = some v → (k, v) ∈ l := by
  intro l
  induction l with
  | nil => intro k v h; cases h
  | cons head tail ih =>
    obtain ⟨k0, v0⟩ := head
    intro k v h
    by_cases hk : k0 = k
    · subst hk
      simp only [alistGet, if_pos rfl] at h
      cases h
      exact List.mem_cons_self _ _
    · simp only [alistGet, if_neg hk] at h
      exact List.mem_cons_of_mem _ (ih k v h)

theorem objGet_mem :
    ∀ (po : SiteMap) (key : PyVal) (im : InstMap), objGet po key = some im →
      ∃ k, key = .s k ∧ (k, im) ∈ po := by
  intro po
  induction po with
  | nil => intro key im h; cases h
  | cons head tail ih =>
    obtain ⟨k0, v0⟩ := head
    intro key im h
    by_cases hk : key = PyVal.s k0
    · subst hk
      simp only [objGet, if_pos rfl] at h
      cases h
      exact ⟨k0, rfl, List.mem_cons_self _ _⟩
    · simp only [objGet, if_neg hk] at h
      obtain ⟨k, hkey, hmem⟩ := ih key im h
      exact ⟨k, hkey, List.mem_cons_of_mem _ hmem⟩

theorem scanResources_sound (resource : String) :
    ∀ (rd : ResDict) (ms : List String) (x : String),
      x ∈ resultList (scanResources resource rd ms) →
      x ∈ ms ∨ ∃ rk, (rk, x) ∈ rd ∧ pyLower rk = pyLower resource := by
  intro rd
  induction rd with
  | nil => intro ms x hx; exact .inl hx
  | cons head tail ih =>
    obtain ⟨rk, rv⟩ := head
    intro ms x hx
    by_cases hm : pyLower rk = pyLower resource
    · by_cases hg : (ms ++ [rv]).length > 1
      · simp only [scanResources, if_pos hm, if_pos hg, resultList] at hx
        rcases List.mem_append.mp hx with h | h
        · exact .inl h
        · right
          exact ⟨rk, by simp [List.mem_singleton.mp h], hm⟩
      · simp only [scanResources, if_pos hm, if_neg hg] at hx
        rcases ih (ms ++ [rv]) x hx with h | ⟨rk2, hrk2, hlo⟩
        · rcases List.mem_append.mp h with h | h
          · exact .inl h
          · right
            exact ⟨rk, by simp [List.mem_singleton.mp h], hm⟩
        · right
          exact ⟨rk2, List.mem_cons_of_mem _ hrk2, hlo⟩
    · by_cases hg : ms.length > 1
      · simp only [scanResources, if_neg hm, if_pos hg, resultList] at hx
        exact .inl hx
      · simp only [scanResources, if_neg hm, if_neg hg] at hx
        rcases ih ms x hx with h | ⟨rk2, hrk2, hlo⟩
        · exact .inl h
        · right
          exact ⟨rk2, List.mem_cons_of_mem _ hrk2, hlo⟩

theorem searchInstances_sound (po : SiteMap) (resource : String)
    (obj ik : PyVal) (ms : List String) (x : String)
    (hx : x ∈ resultList (searchInstances po resource obj ik ms)) :
    x ∈ ms ∨ ∃ objName, obj = .s objName ∧ occAt po objName ik resource x := by
  cases hobj : objGet po obj with
  | none =>
    simp only [searchInstances, hobj, resultList] at hx
    exact .inl hx
  | some im =>
    cases hik : alistGet im ik with
    | none =>
      simp only [searchInstances, hobj, hik, resultList] at hx
      simp at hx
    | some rd =>
      simp only [searchInstances, hobj, hik, resultList] at hx
      rcases scanResources_sound resource rd ms x hx with h | ⟨rk, hrk, hlo⟩
      · exact .inl h
      · right
        obtain ⟨objName, hkey, hmem⟩ := objGet_mem po obj im hobj
        exact ⟨objName, hkey, im, rd, rk, hmem, alistGet_mem im ik rd hik,
          hrk, hlo⟩

theorem searchFixedInstance_sound (po : SiteMap) (resource : String)
    (ik : PyVal) :
    ∀ (keys : List String) (ms : List String) (x : String),
      x ∈ resultList (searchFixedInstance po resource ik keys ms) →
      x ∈ ms ∨ ∃ objName, occAt po objName ik resource x := by
  intro keys
  induction keys with
  | nil => intro ms x hx; exact .inl hx
  | cons objKey rest ih =>
    intro ms x hx
    cases hstep : searchInstances po resource (.s objKey) ik ms with
    | error e =>
      simp only [searchFixedInstance, hstep, resultList] at hx
      have : x ∈ resultList (searchInstances po resource (.s objKey) ik ms) := by
        rw [hstep]; exact hx
      rcases searchInstances_sound po resource (.s objKey) ik ms x this with
        h | ⟨objName, _, hocc⟩
      · exact .inl h
      · exact .inr ⟨objName, hocc⟩
    | ok ms1 =>
      simp only [searchFixedInstance, hstep] at hx
      rcases ih ms1 x hx with h | hocc
      · have : x ∈ resultList (searchInstances po resource (.s objKey) ik ms) := by
          rw [hstep]; exact h
        rcases searchInstances_sound po resource (.s objKey) ik ms x this with
          h2 | ⟨objName, _, hocc2⟩
        · exact .inl h2
        · exact .inr ⟨objName, hocc2⟩
      · exact .inr hocc

theorem searchObjInsts_sound (po : SiteMap) (resource : String)
    (obj : PyVal) :
    ∀ (keys : List PyVal) (ms : List String) (x : String),
      x ∈ resultList (searchObjInsts po resource obj keys ms) →
      x ∈ ms ∨ ∃ objName ik, obj = .s objName ∧ occAt po objName ik resource x := by
  intro keys
  induction keys with
  | nil => intro ms x hx; exact .inl hx
  | cons ik rest ih =>
    intro ms x hx
    cases hstep : searchInstances po resource obj ik ms with
    | error e =>
      simp only [searchObjInsts, hstep, resultList] at hx
      have : x ∈ resultList (searchInstances po resource obj ik ms) := by
        rw [hstep]; exact hx
      rcases searchInstances_sound po resource obj ik ms x this with
        h | ⟨objName, hkey, hocc⟩
      · exact .inl h
      · exact .inr ⟨objName, ik, hkey, hocc⟩
    | ok ms1 =>
      simp only [searchObjInsts, hstep] at hx
      rcases ih ms1 x hx with h | hocc
      · have : x ∈ resultList (searchInstances po resource obj ik ms) := by
          rw [hstep]; exact h
        rcases searchInstances_sound po resource obj ik ms x this with
          h2 | ⟨objName, hkey, hocc2⟩
        · exact .inl h2
        · exact .inr ⟨objName, ik, hkey, hocc2⟩
      · exact .inr hocc

theorem searchAllObjs_sound (po : SiteMap) (resource : String) :
    ∀ (keys : List String) (ms : List String) (x : String),
      x ∈ resultList (searchAllObjs po resource keys ms) →
      x ∈ ms ∨ ∃ objName ik, occAt po objName ik resource x := by
  intro keys
  induction keys with
  | nil => intro ms x hx; exact .inl hx
  | cons objKey rest ih =>
    intro ms x hx
    cases hobj : objGet po (.s objKey) with
    | none =>
      simp only [searchAllObjs, hobj, resultList] at hx
      exact .inl hx
    | some im =>
      cases hstep : searchObjInsts po resource (.s objKey)
          (im.map Prod.fst) ms with
      | error e =>
        simp only [searchAllObjs, hobj, hstep, resultList] at hx
        have : x ∈ resultList (searchObjInsts po resource (.s objKey)
            (im.map Prod.fst) ms) := by
          rw [hstep]; exact hx
        rcases searchObjInsts_sound po resource (.s objKey) _ ms x this with
          h | ⟨objName, ik, _, hocc⟩
        · exact .inl h
        · exact .inr ⟨objName, ik, hocc⟩
      | ok ms1 =>
        simp only [searchAllObjs, hobj, hstep] at hx
        rcases ih ms1 x hx with h | hocc
        · have : x ∈ resultList (searchObjInsts po resource (.s objKey)
              (im.map Prod.fst) ms) := by
            rw [hstep]; exact h
          rcases searchObjInsts_sound po resource (.s objKey) _ ms x this with
            h2 | ⟨objName, ik, _, hocc2⟩
          · exact .inl h2
          · exact .inr ⟨objName, ik, hocc2⟩
        · exact .inr hocc

theorem qualObjOK_int (obj : PyVal) (hp : pyParsesAsInt obj = true)
    (objName : String) : qualObjOK (some obj) objName := by
  intro v hv hfalse
  injection hv with hv2
  subst hv2
  simp only [pyParsesAsInt] at hp
  rw [hfalse] at hp
  cases hp

theorem qualObjOK_of_eq (obj : PyVal) (objName : String)
    (hkey : obj = .s objName) : qualObjOK (some obj) objName := by
  intro v hv _
  rw [hkey] at hv
  injection hv with hv2
  injection hv2 with hv3

theorem qualInstOK_int (obj : PyVal) (hp : pyParsesAsInt obj = true)
    (instance_ : Option PyVal) :
    qualInstOK (some obj) instance_ (.s (pyStr obj)) := by
  simp [qualInstOK, hp]

/-- C10: whenever resolution succeeds, the returned path is a value actually
stored in the site map under some (object, instance) pair whose resource
name case-folds to the queried name (`occAt`), and that pair is consistent
with the supplied qualifiers: a non-integer-like `object_` pins the object
name (`qualObjOK`), and a supplied instance — whether given directly or via
an integer-like `object_` — pins the instance key, up to the `str`
normalization the code applies in each branch (`qualInstOK`: the stringified
`object_` in the integer-like branch, the stringified `instance_` in the
object-absent branch, and the raw `instance_` in the exact-pair branch). -/
theorem searchDictionary_sound (po : SiteMap) (resource : String)
    (object_ instance_ : Option PyVal) (p : String)
    (h : searchDictionary po resource object_ instance_ = .ok p) :
    ∃ objName instKey, occAt po objName instKey resource p ∧
      qualObjOK object_ objName ∧ qualInstOK object_ instance_ instKey := by
  cases object_ with
  | none =>
    cases instance_ with
    | none =>
      cases hr : searchAllObjs po resource (po.map Prod.fst) [] with
      | error e => simp [searchDictionary, hr] at h
      | ok l =>
        cases l with
        | nil => simp [searchDictionary, hr] at h
        | cons m rest =>
          simp [searchDictionary, hr] at h
          subst h
          have hmem : m ∈ resultList
              (searchAllObjs po resource (po.map Prod.fst) []) := by
            rw [hr]
            exact List.mem_cons_self _ _
          rcases searchAllObjs_sound po resource _ [] m hmem with
            h0 | ⟨objName, ik, hocc⟩
          · cases h0
          · refine ⟨objName, ik, hocc, ?_, ?_⟩
            · intro v hv
              cases hv
            · intro i hi
              cases hi
    | some inst =>
      cases hr : searchFixedInstance po resource (.s (pyStr inst))
          (po.map Prod.fst) [] with
      | error e => simp [searchDictionary, hr] at h
      | ok l =>
        cases l with
        | nil => simp [searchDictionary, hr] at h
        | cons m rest =>
          simp [searchDictionary, hr] at h
          subst h
          have hmem : m ∈ resultList (searchFixedInstance po resource
              (.s (pyStr inst)) (po.map Prod.fst) []) := by
            rw [hr]
            exact List.mem_cons_self _ _
          rcases searchFixedInstance_sound po resource _ _ [] m hmem with
            h0 | ⟨objName, hocc⟩
          · cases h0
          · refine ⟨objName, .s (pyStr inst), hocc, ?_, ?_⟩
            · intro v hv
              cases hv
            · intro i hi
              injection hi with hi2
              rw [hi2]
  | some obj =>
    cases hp : pyParsesAsInt obj with
    | true =>
      cases hr : searchFixedInstance po resource (.s (pyStr obj))
          (po.map Prod.fst) [] with
      | ok l =>
        cases l with
        | nil => simp [searchDictionary, hp, hr] at h
        | cons m rest =>
          simp [searchDictionary, hp, hr] at h
          subst h
          have hmem : m ∈ resultList (searchFixedInstance po resource
              (.s (pyStr obj)) (po.map Prod.fst) []) := by
            rw [hr]
            exact List.mem_cons_self _ _
          rcases searchFixedInstance_sound po resource _ _ [] m hmem with
            h0 | ⟨objName, hocc⟩
          · cases h0
          · exact ⟨objName, .s (pyStr obj), hocc,
              qualObjOK_int obj hp objName, qualInstOK_int obj hp instance_⟩
      | error e =>
        cases hr2 : searchInstances po resource obj (.s (pyStr obj)) e.2 with
        | error e2 => simp [searchDictionary, hp, hr, hr2] at h
        | ok l =>
          cases l with
          | nil => simp [searchDictionary, hp, hr, hr2] at h
          | cons m rest =>
            simp [searchDictionary, hp, hr, hr2] at h
            subst h
            have hmem : m ∈ resultList
                (searchInstances po resource obj (.s (pyStr obj)) e.2) := by
              rw [hr2]
              exact List.mem_cons_self _ _
            rcases searchInstances_sound po resource obj _ e.2 m hmem with
              h0 | ⟨objName, hkey, hocc⟩
            · have hmem2 : m ∈ resultList (searchFixedInstance po resource
                  (.s (pyStr obj)) (po.map Prod.fst) []) := by
                rw [hr]
                exact h0
              rcases searchFixedInstance_sound po resource _ _ [] m hmem2 with
                h1 | ⟨objName, hocc⟩
              · cases h1
              · exact ⟨objName, .s (pyStr obj), hocc,
                  qualObjOK_int obj hp objName, qualInstOK_int obj hp instance_⟩
            · exact ⟨objName, .s (pyStr obj), hocc,
                qualObjOK_int obj hp objName, qualInstOK_int obj hp instance_⟩
    | false =>
      cases instance_ with
      | none =>
        cases hro : objGet po obj with
        | none => simp [searchDictionary, hp, hro] at h
        | some im =>
          cases hr : searchObjInsts po resource obj (im.map Prod.fst) [] with
          | error e => simp [searchDictionary, hp, hro, hr] at h
          | ok l =>
            cases l with
            | nil => simp [searchDictionary, hp, hro, hr] at h
            | cons m rest =>
              simp [searchDictionary, hp, hro, hr] at h
              subst h
              have hmem : m ∈ resultList
                  (searchObjInsts po resource obj (im.map Prod.fst) []) := by
                rw [hr]
                exact List.mem_cons_self _ _
              rcases searchObjInsts_sound po resource obj _ [] m hmem with
                h0 | ⟨objName, ik, hkey, hocc⟩
              · cases h0
              · refine ⟨objName, ik, hocc,
                  qualObjOK_of_eq obj objName hkey, ?_⟩
                simp [qualInstOK, hp]
      | some inst =>
        cases hr : searchInstances po resource obj inst [] with
        | error e => simp [searchDictionary, hp, hr] at h
        | ok l =>
          cases l with
          | nil => simp [searchDictionary, hp, hr] at h
          | cons m rest =>
            simp [searchDictionary, hp, hr] at h
            subst h
            have hmem : m ∈ resultList
                (searchInstances po resource obj inst []) := by
              rw [hr]
              exact List.mem_cons_self _ _
            rcases searchInstances_sound po resource obj inst [] m hmem with
              h0 | ⟨objName, hkey, hocc⟩
            · cases h0
            · refine ⟨objName, inst, hocc,
                qualObjOK_of_eq obj objName hkey, ?_⟩
              simp [qualInstOK, hp]

/-- Witness for C4: "Battery_Test" is stored once in `poBatt` and is found by
the case-folded query "battery_test". -/
theorem resolve_unique_occurrence_w :
    SiteMapWF poBatt ∧ occurrences "battery_test" poBatt = ["/3/0/9"] ∧
    searchDictionary poBatt "battery_test" none none = .ok "/3/0/9" :=
  ⟨by decide, by decide,
   resolve_unique_occurrence poBatt "battery_test" "/3/0/9" (by decide)
     (by decide)⟩

/-- Witness for C10: the successful resolution of "R" under object "Device"
and instance "0" on `poDev` is stored in the map consistently with both
qualifiers. -/
theorem searchDictionary_sound_w :
    ∃ objName instKey, occAt poDev objName instKey "R" "/1" ∧
      qualObjOK (some (.s "Device")) objName ∧
      qualInstOK (some (.s "Device")) (some (.s "0")) instKey :=
  searchDictionary_sound poDev "R" (some (.s "Device")) (some (.s "0")) "/1"
    (by decide)

end LRest
